import Mathlib

/-!
Verification of the batching/retry/pooling engine of the ffs2-logger
repository against its natural-language specification.

The development shallowly embeds two source components:

* `LogEventPool` (src/src/helpers/format.ts, the object pool for
  `PoolableLogEvent` records).  JavaScript objects are modelled by an
  explicit store: every event object ever created lives in
  `LogEventPool.store`, and an object reference is the index of the event
  in that store.  The pool's free list (`this.pool`, a JS array used as a
  stack via `push`/`pop` at the end) is modelled as a `List Nat` of store
  indices whose HEAD is the top of the stack (the end of the JS array).

* `AAsyncBatchAppender` (the abstract async batch appender).  The engine
  is single-threaded cooperative in the source; every `await` chain in
  `append -> addToBatch -> flush -> processBatch/retryBatch` is fully
  sequential, so the embedding is a state-passing functional model.  The
  abstract sink `processBatch` is modelled by an oracle
  `Nat → Option Nat` giving the outcome of the k-th invocation:
  `none` means the promise resolves, `some e` means it rejects with the
  error value `e` (the value is threaded so that "re-raises the same
  failure" is expressible).  Ghost trace fields (`calls`, `processed`,
  `delays`, `actions`) record what the sink and the timer machinery
  observe; they mirror the externally visible behaviour of the code and
  carry no decision logic of their own.
-/

set_option autoImplicit false

namespace FFS2

/-- Log levels, from src/src/types/LogLevel.ts (`LOG_LEVEL`). -/
inductive LogLevel
  | silly | debug | trace | verbose | log | info | http | data
  | warn | httpError | error | fatal
deriving DecidableEq

/-- A poolable log event record, from `PoolableLogEvent` /
`LogEventPool.createNewEvent` in src/src/helpers/format.ts.
Optional text fields are `Option String`; `data` holds the JSON
serialization of the structured `data` value when one is present (the
model assumes a present `data` value is truthy and serializable, the
ordinary case for structured payloads); `error` holds the error's
message.  `inPool` models the `_inPool` marker. -/
structure PooledEvent where
  message : Option String := none
  data : Option String := none
  context : Option String := none
  error : Option String := none
  level : LogLevel := .info
  timestamp : Nat := 0
  inPool : Bool := false
deriving DecidableEq

/-- `reset()` from `createNewEvent`: deletes `message`, `data`,
`context`, `error`, sets `level = 'info'` and `timestamp = 0`.
It does not touch the `_inPool` marker. -/
def PooledEvent.reset (e : PooledEvent) : PooledEvent :=
  { e with message := none, data := none, context := none, error := none,
           level := .info, timestamp := 0 }

/-- `createNewEvent()`: a fresh record with default fields and
`_inPool = false`. -/
def createNewEvent : PooledEvent := {}

/-- The event object pool (`LogEventPool`).  `store` holds every event
object ever created (index = object identity); `pool` is the free list of
store indices, head = top of the stack (the end of the JS array). -/
structure LogEventPool where
  store : List PooledEvent := []
  pool : List Nat := []
  maxPoolSize : Nat := 100
  created : Nat := 0
  reused : Nat := 0
  active : Nat := 0
deriving DecidableEq

namespace LogEventPool

/-- `acquire()`: pop from the free list if non-empty (marking the event
checked out and counting a reuse), else create a new event (counting a
creation).  Returns the store index of the returned object together with
the updated pool. -/
def acquire (p : LogEventPool) : Nat × LogEventPool :=
  match p.pool with
  | [] =>
      (p.store.length,
       { p with store := p.store ++ [createNewEvent],
                created := p.created + 1,
                active := p.active + 1 })
  | i :: rest =>
      (i,
       { p with pool := rest,
                store := p.store.set i { p.store.getD i createNewEvent with inPool := false },
                reused := p.reused + 1,
                active := p.active + 1 })

/-- `release(event)`: no-op if the event's `_inPool` marker is set;
otherwise reset the event, set the marker, push onto the free list only
if the list is below `maxPoolSize`, and decrement `active` clamped at 0
(`Math.max(0, this.active - 1)` is truncated `Nat` subtraction). -/
def release (p : LogEventPool) (i : Nat) : LogEventPool :=
  if (p.store.getD i createNewEvent).inPool then p
  else
    let e := { (p.store.getD i createNewEvent).reset with inPool := true }
    { p with store := p.store.set i e,
             pool := if p.pool.length < p.maxPoolSize then i :: p.pool else p.pool,
             active := p.active - 1 }

/-- One iteration body of `prewarm` repeated `m` times: create a new
event, reset it, mark it pooled, push it onto the free list. -/
def prewarmLoop (p : LogEventPool) : Nat → LogEventPool
  | 0 => p
  | m + 1 =>
      prewarmLoop
        { p with store := p.store ++ [{ createNewEvent.reset with inPool := true }],
                 pool := p.store.length :: p.pool } m

/-- `prewarm(count)`: the loop runs `min(count, maxPoolSize)` times,
never consulting the free list's current length. -/
def prewarm (p : LogEventPool) (count : Nat) : LogEventPool :=
  prewarmLoop p (min count p.maxPoolSize)

/-- `clear()`: empties the free list and resets the counters (the store
of ever-created objects is retained by the model; the objects are simply
no longer reachable from the pool). -/
def clear (p : LogEventPool) : LogEventPool :=
  { p with pool := [], created := 0, reused := 0, active := 0 }

end LogEventPool

/-- The six mutable fields of an event are at their defaults (the state
`reset()` establishes and `createNewEvent()` starts from). -/
def PooledEvent.isReset (e : PooledEvent) : Prop :=
  e.message = none ∧ e.data = none ∧ e.context = none ∧ e.error = none ∧
    e.level = .info ∧ e.timestamp = 0

instance (e : PooledEvent) : Decidable e.isReset := by
  unfold PooledEvent.isReset; infer_instance

/-- Pool well-formedness: every index on the free list denotes a live
store entry that is reset and carries the `_inPool` marker.  This is the
state of affairs `release` and `prewarm` establish before pushing. -/
def LogEventPool.Inv (p : LogEventPool) : Prop :=
  ∀ i ∈ p.pool, i < p.store.length ∧
    (p.store.getD i createNewEvent).isReset ∧
    (p.store.getD i createNewEvent).inPool = true

instance (p : LogEventPool) : Decidable p.Inv := by
  unfold LogEventPool.Inv; infer_instance

/-- The freshly created, reset, marked instance that each `prewarm`
iteration pushes. -/
def prewarmEntry : PooledEvent := { createNewEvent.reset with inPool := true }

/-! ## The abstract async batch appender (`AAsyncBatchAppender`) -/

/-- `BatchConfig` from the appender source.  The optional
`maxMemoryUsage` and `maxRetries` keep their optionality (`Option Nat`)
because the code applies distinct defaults (`?? 0` in `flush`,
`?? 3` in `retryBatch`) and a JS truthiness test to them. -/
structure BatchConfig where
  maxBatchSize : Nat
  maxWaitTime : Nat
  maxMemoryUsage : Option Nat := none
  enableRetry : Bool := false
  maxRetries : Option Nat := none
deriving DecidableEq

/-- A log event as seen by the engine (`LogEvent` from
src/src/types/LogEvent.ts).  `message`/`context` are the optional text
fields; `data` holds the JSON serialization of the structured `data`
value when present (assumed truthy and serializable, as for
`PooledEvent`); `poolIdx` is `some i` exactly when the object is a
`PoolableLogEvent` (carries a boolean `_inPool` marker), `i` being its
index in the pool's store. -/
structure LogEvent where
  message : Option String := none
  context : Option String := none
  data : Option String := none
  poolIdx : Option Nat := none
deriving DecidableEq

/-- `BatchStats`.  `avgBatchSize` is a JS float in the source; the model
uses exact rationals, which agree with the float on the small updates the
claims exercise and differ only by rounding noise never asserted here. -/
structure BatchStats where
  totalEvents : Nat := 0
  batchesFlushed : Nat := 0
  avgBatchSize : ℚ := 0
  pendingEvents : Nat := 0
  errors : Nat := 0
  retries : Nat := 0
deriving DecidableEq

/-- Externally visible timer/buffer actions of the engine, recorded in
order as a ghost trace: arming the flush timer (`setTimeout` in
`scheduleFlush`), swapping the pending buffer for an empty one
(`batchToFlush = [...this.batch]; this.batch = []`), cancelling the
timer (`clearTimeout`), and invoking `processBatch`. -/
inductive EngineAction
  | armTimer | swapBuffer | clearTimer | invokeProcess
deriving DecidableEq

/-- The appender state.  `batch`, `flushTimer`, `stats`, `isDestroying`
mirror the class fields (the timer is `true` when armed); `pool` is the
shared `logEventPool` instance.  `calls`, `processed`, `delays` and
`actions` are ghost observation traces: the number of `processBatch`
invocations so far, for each invocation the batch handed over and
whether it came from `retryBatch` (`true`) rather than `flush`
(`false`), the backoff waits performed (ms), and the timer/buffer
actions in order. -/
structure EngineState where
  batch : List LogEvent := []
  flushTimer : Bool := false
  stats : BatchStats := {}
  isDestroying : Bool := false
  pool : LogEventPool := {}
  calls : Nat := 0
  processed : List (List LogEvent × Bool) := []
  delays : List Nat := []
  actions : List EngineAction := []
deriving DecidableEq

/-- Outcome of an engine entry point: the promise resolves (`ok`),
rejects with the sink's own error value re-raised (`sinkErr e`), or
rejects with the terminal `Error` built by `retryBatch` after
exhausting retries, which carries the attempt count (`terminalErr k`,
for ``new Error(`Failed to flush batch after ${attempt} retries`)``). -/
inductive FlushOutcome
  | ok
  | sinkErr (e : Nat)
  | terminalErr (attempts : Nat)
deriving DecidableEq

namespace AAsyncBatchAppender

/-- `estimateEventSize(event)`: 100 bytes base overhead, plus twice the
character length of `message` and `context` and twice the length of the
JSON serialization of `data`, each counted only when the field is
present.  (In JS the guards are truthiness tests; an absent field and an
empty string both contribute 0 to the size, so `Option`-presence is an
exact model for the text fields.) -/
def estimateEventSize (event : LogEvent) : Nat :=
  100 +
    (match event.message with | some s => 2 * s.length | none => 0) +
    (match event.context with | some s => 2 * s.length | none => 0) +
    (match event.data with | some j => 2 * j.length | none => 0)

/-- `estimateBatchMemoryUsage()`: sum of the per-event estimates over
the current batch. -/
def estimateBatchMemoryUsage (batch : List LogEvent) : Nat :=
  batch.foldl (fun totalSize event => totalSize + estimateEventSize event) 0

/-- `shouldFlush()`: size trigger first (`batch.length >= maxBatchSize`);
otherwise the memory trigger, guarded by the JS truthiness test
`if (this.config.maxMemoryUsage)` — the memory branch runs only when
`maxMemoryUsage` is present AND non-zero. -/
def shouldFlush (cfg : BatchConfig) (batch : List LogEvent) : Bool :=
  if cfg.maxBatchSize ≤ batch.length then true
  else
    match cfg.maxMemoryUsage with
    | some m => !(m == 0) && decide (m ≤ estimateBatchMemoryUsage batch)
    | none => false

/-- `scheduleFlush()`: do nothing if a timer is already armed or the
batch is empty; otherwise arm the single flush timer. -/
def scheduleFlush (s : EngineState) : EngineState :=
  if s.flushTimer || s.batch.isEmpty then s
  else { s with flushTimer := true, actions := s.actions ++ [EngineAction.armTimer] }

/-- `returnEventsToPool(events)`: release every event that carries the
`_inPool` marker (modelled by `poolIdx = some i`) back to the pool, in
batch order. -/
def returnEventsToPool (pool : LogEventPool) (events : List LogEvent) : LogEventPool :=
  events.foldl
    (fun p event =>
      match event.poolIdx with
      | some i => p.release i
      | none => p)
    pool

/-- `updateAverageBatchSize(batchSize)`: running average over
`batchesFlushed` (already incremented by the caller). -/
def updateAverageBatchSize (stats : BatchStats) (batchSize : Nat) : BatchStats :=
  if stats.batchesFlushed = 1 then { stats with avgBatchSize := batchSize }
  else
    { stats with
        avgBatchSize :=
          (stats.avgBatchSize * ((stats.batchesFlushed : ℚ) - 1) + batchSize) /
            (stats.batchesFlushed : ℚ) }

/-- Body of `retryBatch(batch, attempt)` with structural fuel.
The source recurses with `attempt + 1` until `attempt >= maxRetries`
(where `maxRetries = this.config.maxRetries ?? 3`); the fuel is the
remaining budget `maxRetries - attempt`, so `fuel = 0` is exactly the
`attempt >= maxRetries` guard.  `retryBatch_eq` below proves the
source-shaped recursion equation for the wrapper. -/
def retryBatchAux (cfg : BatchConfig) (oracle : Nat → Option Nat) :
    Nat → EngineState → List LogEvent → Nat → EngineState × FlushOutcome
  | 0, s, batch, attempt =>
      ({ s with pool := returnEventsToPool s.pool batch }, .terminalErr attempt)
  | fuel + 1, s, batch, attempt =>
      let s := { s with stats := { s.stats with retries := s.stats.retries + 1 } }
      let delay := min (1000 * 2 ^ attempt) 10000
      let s := { s with delays := s.delays ++ [delay] }
      let outcome := oracle s.calls
      let s := { s with calls := s.calls + 1,
                        processed := s.processed ++ [(batch, true)],
                        actions := s.actions ++ [EngineAction.invokeProcess] }
      match outcome with
      | none =>
          let stats := { s.stats with batchesFlushed := s.stats.batchesFlushed + 1 }
          let stats := updateAverageBatchSize stats batch.length
          ({ s with stats := stats, pool := returnEventsToPool s.pool batch }, .ok)
      | some _ => retryBatchAux cfg oracle fuel s batch (attempt + 1)

/-- `retryBatch(batch, attempt)`. -/
def retryBatch (cfg : BatchConfig) (oracle : Nat → Option Nat) (s : EngineState)
    (batch : List LogEvent) (attempt : Nat) : EngineState × FlushOutcome :=
  retryBatchAux cfg oracle (cfg.maxRetries.getD 3 - attempt) s batch attempt

/-- `flush()`: early return on an empty batch (note: without touching
the timer); otherwise swap the pending buffer for an empty one, then
cancel any armed timer, then invoke `processBatch`.  On success:
`batchesFlushed++`, `pendingEvents = Math.max(0, pendingEvents - n)`
(truncated `Nat` subtraction), recompute the running average, release
the events.  On failure: `errors++`; enter the retry machine when
`enableRetry && (maxRetries ?? 0) > 0`, else release the events and
re-raise the same failure. -/
def flush (cfg : BatchConfig) (oracle : Nat → Option Nat) (s : EngineState) :
    EngineState × FlushOutcome :=
  if s.batch.isEmpty then (s, .ok)
  else
    let batchToFlush := s.batch
    let s := { s with batch := [], actions := s.actions ++ [EngineAction.swapBuffer] }
    let s :=
      if s.flushTimer then
        { s with flushTimer := false, actions := s.actions ++ [EngineAction.clearTimer] }
      else s
    let outcome := oracle s.calls
    let s := { s with calls := s.calls + 1,
                      processed := s.processed ++ [(batchToFlush, false)],
                      actions := s.actions ++ [EngineAction.invokeProcess] }
    match outcome with
    | none =>
        let stats := { s.stats with batchesFlushed := s.stats.batchesFlushed + 1 }
        let stats := { stats with pendingEvents := stats.pendingEvents - batchToFlush.length }
        let stats := updateAverageBatchSize stats batchToFlush.length
        ({ s with stats := stats, pool := returnEventsToPool s.pool batchToFlush }, .ok)
    | some e =>
        let s := { s with stats := { s.stats with errors := s.stats.errors + 1 } }
        if cfg.enableRetry && decide (0 < cfg.maxRetries.getD 0) then
          retryBatch cfg oracle s batchToFlush 0
        else
          ({ s with pool := returnEventsToPool s.pool batchToFlush }, .sinkErr e)

/-- `addToBatch(event)`: push, bump `totalEvents`/`pendingEvents`, then
flush immediately if `shouldFlush()` holds, else `scheduleFlush()`. -/
def addToBatch (cfg : BatchConfig) (oracle : Nat → Option Nat) (s : EngineState)
    (event : LogEvent) : EngineState × FlushOutcome :=
  let s := { s with
               batch := s.batch ++ [event],
               stats := { s.stats with
                            totalEvents := s.stats.totalEvents + 1,
                            pendingEvents := s.stats.pendingEvents + 1 } }
  if shouldFlush cfg s.batch then flush cfg oracle s
  else (scheduleFlush s, .ok)

/-- The `for (const event of events) await this.addToBatch(event)` loop
of `append`: a rejection from `addToBatch` propagates and aborts the
loop. -/
def appendList (cfg : BatchConfig) (oracle : Nat → Option Nat) :
    List LogEvent → EngineState → EngineState × FlushOutcome
  | [], s => (s, .ok)
  | event :: rest, s =>
      match addToBatch cfg oracle s event with
      | (s', .ok) => appendList cfg oracle rest s'
      | (s', r) => (s', r)

/-- `append(message)`: silently resolves while destroying, otherwise
adds the events one by one (a single event is the one-element list). -/
def append (cfg : BatchConfig) (oracle : Nat → Option Nat)
    (events : List LogEvent) (s : EngineState) : EngineState × FlushOutcome :=
  if s.isDestroying then (s, .ok) else appendList cfg oracle events s

/-- `forceFlush()` simply awaits `flush()`. -/
def forceFlush (cfg : BatchConfig) (oracle : Nat → Option Nat) (s : EngineState) :
    EngineState × FlushOutcome :=
  flush cfg oracle s

/-- `destroy()`: idempotent early return; otherwise set the destroying
flag, cancel any armed timer (`clearTimeout`), and drain with a final
`flush()`. -/
def destroy (cfg : BatchConfig) (oracle : Nat → Option Nat) (s : EngineState) :
    EngineState × FlushOutcome :=
  if s.isDestroying then (s, .ok)
  else
    let s := { s with isDestroying := true }
    let s :=
      if s.flushTimer then
        { s with flushTimer := false, actions := s.actions ++ [EngineAction.clearTimer] }
      else s
    flush cfg oracle s

/-- The armed timer's callback: `delete this.flushTimer; await
this.flush()`.  It runs only while the timer is armed (the `delete` is
not a `clearTimeout`, so no `clearTimer` action is recorded). -/
def timerFire (cfg : BatchConfig) (oracle : Nat → Option Nat) (s : EngineState) :
    EngineState × FlushOutcome :=
  if s.flushTimer then flush cfg oracle { s with flushTimer := false } else (s, .ok)

end AAsyncBatchAppender

open AAsyncBatchAppender in
/-- Engine states reachable from a fresh appender by completed public
operations (the cooperative single-threaded model: each operation's
`await` chain runs to completion before the next, so every listed state
is a quiescent point with no flush or retry in flight). -/
inductive Reachable (cfg : BatchConfig) (oracle : Nat → Option Nat) : EngineState → Prop
  | init : Reachable cfg oracle {}
  | append (s : EngineState) (events : List LogEvent) :
      Reachable cfg oracle s → Reachable cfg oracle (append cfg oracle events s).1
  | forceFlush (s : EngineState) :
      Reachable cfg oracle s → Reachable cfg oracle (forceFlush cfg oracle s).1
  | destroy (s : EngineState) :
      Reachable cfg oracle s → Reachable cfg oracle (destroy cfg oracle s).1
  | timerFire (s : EngineState) :
      Reachable cfg oracle s → Reachable cfg oracle (timerFire cfg oracle s).1

/-- Sum of the sizes of the successfully processed batches recorded in a
`processed` trace, reading the per-invocation outcomes from the oracle
starting at invocation index `k`: invocation `k + j` succeeded when
`oracle (k + j) = none`. -/
def succProcessedSizes (oracle : Nat → Option Nat) : Nat → List (List LogEvent × Bool) → Nat
  | _, [] => 0
  | k, r :: rest =>
      (if oracle k = none then r.1.length else 0) + succProcessedSizes oracle (k + 1) rest

/-- Like `succProcessedSizes`, but counting only batches successfully
processed by the direct `flush` path (retry invocations, flagged `true`,
are excluded). -/
def directSuccSizes (oracle : Nat → Option Nat) : Nat → List (List LogEvent × Bool) → Nat
  | _, [] => 0
  | k, r :: rest =>
      (if oracle k = none ∧ r.2 = false then r.1.length else 0) +
        directSuccSizes oracle (k + 1) rest

/-- The accounting invariant actually maintained by the engine: the
invocation counter matches the trace, `totalEvents` equals the sizes of
the batches successfully processed on the direct flush path plus
`pendingEvents`, and the pending buffer is never larger than the
`pendingEvents` counter. -/
def EngineInv (oracle : Nat → Option Nat) (s : EngineState) : Prop :=
  s.calls = s.processed.length ∧
  s.stats.totalEvents = directSuccSizes oracle 0 s.processed + s.stats.pendingEvents ∧
  s.batch.length ≤ s.stats.pendingEvents

/-- The sizes of the batches handed to `processBatch`, in invocation
order. -/
def flushSizes (s : EngineState) : List Nat :=
  s.processed.map (fun r => r.1.length)

/-- The spec's wording of the flush predicate, for comparison with the
code's `shouldFlush`: size trigger, or `maxMemoryUsage` configured (an
optional field being configured = being present) and the estimate
meeting or exceeding it. -/
def specShouldFlush (cfg : BatchConfig) (batch : List LogEvent) : Prop :=
  cfg.maxBatchSize ≤ batch.length ∨
    (∃ m, cfg.maxMemoryUsage = some m ∧ m ≤ AAsyncBatchAppender.estimateBatchMemoryUsage batch)

/-- The state a non-empty `flush()` reaches just after invoking
`processBatch`, before the outcome is known: pending buffer swapped out,
any armed timer cancelled, the invocation recorded.  (`flush_eq` proves
that `flush` factors through this state.) -/
def flushedCore (s : EngineState) : EngineState :=
  { s with batch := [],
           flushTimer := false,
           actions := (s.actions ++ [EngineAction.swapBuffer]) ++
             (if s.flushTimer then [EngineAction.clearTimer] else []) ++
             [EngineAction.invokeProcess],
           calls := s.calls + 1,
           processed := s.processed ++ [(s.batch, false)] }

/-- The stats update of `flush`'s success path: `batchesFlushed++`,
`pendingEvents = Math.max(0, pendingEvents - n)`, then the running
average recomputation. -/
def flushSuccessStats (stats : BatchStats) (n : Nat) : BatchStats :=
  AAsyncBatchAppender.updateAverageBatchSize
    { stats with batchesFlushed := stats.batchesFlushed + 1,
                 pendingEvents := stats.pendingEvents - n } n

/-- Releasing a list of store indices in order (the index-level view of
`returnEventsToPool`; `returnEventsToPool_eq` relates the two). -/
def releaseAll (p : LogEventPool) (l : List Nat) : LogEventPool :=
  l.foldl LogEventPool.release p

/-! ## Concrete pools used by witnesses -/

/-- A pool holding a single already-pooled event on its free list. -/
def poolWithPooled : LogEventPool :=
  { store := [{ inPool := true }], pool := [0], created := 1 }

/-- A pool whose single event is checked out (free list empty). -/
def poolCheckedOut : LogEventPool :=
  { store := [createNewEvent], pool := [], created := 1, active := 1 }

/-! ## Concrete instances used by counterexamples and witnesses -/

/-- A plain (non-poolable) log event with no payload. -/
def ev0 : LogEvent := {}

/-- An event with a two-character message. -/
def evMsg : LogEvent := { message := some "hi" }

/-- Sink oracle that always succeeds. -/
def oracleAllOk : Nat → Option Nat := fun _ => none

/-- Sink oracle that always rejects with error value 3. -/
def oracleAllFail : Nat → Option Nat := fun _ => some 3

/-- Sink oracle that rejects the first invocation (with error value 7)
and succeeds afterwards. -/
def oracleFailFirst : Nat → Option Nat := fun k => if k = 0 then some 7 else none

/-- Config with batch size 1 and retry enabled with one retry. -/
def cfgRetry1 : BatchConfig :=
  { maxBatchSize := 1, maxWaitTime := 1000, enableRetry := true, maxRetries := some 1 }

/-- Config with batch size 1 and retry enabled with two retries. -/
def cfgRetry2 : BatchConfig :=
  { maxBatchSize := 1, maxWaitTime := 0, enableRetry := true, maxRetries := some 2 }

/-- Config with batch size 2, no memory trigger, retry disabled. -/
def cfgSize2 : BatchConfig := { maxBatchSize := 2, maxWaitTime := 100 }

/-- Config with batch size 3, no memory trigger, retry disabled. -/
def cfgSize3 : BatchConfig := { maxBatchSize := 3, maxWaitTime := 100 }

/-- Config with `maxMemoryUsage` configured to the (degenerate but
recognized) value 0 bytes. -/
def cfgMemZero : BatchConfig :=
  { maxBatchSize := 2, maxWaitTime := 0, maxMemoryUsage := some 0 }

/-- Config with a large batch size and retry disabled, for the
flush-error path. -/
def cfgNoRetry : BatchConfig := { maxBatchSize := 10, maxWaitTime := 0 }

/-- One event appended under `cfgRetry1` against a sink that fails once
then succeeds: the batch is flushed, fails, and succeeds on the first
retry. -/
def runRetrySuccess : EngineState :=
  (AAsyncBatchAppender.append cfgRetry1 oracleFailFirst [ev0] {}).1

/-- Two events appended under `cfgSize2`: the first arms the flush
timer, the second triggers a size-based flush while the timer is armed. -/
def runTimerThenFlush : EngineState :=
  (AAsyncBatchAppender.append cfgSize2 oracleAllOk [ev0, ev0] {}).1

/-- Seven events appended under `cfgSize3` with every sink call
succeeding and no timer firing. -/
def runSeven : EngineState :=
  (AAsyncBatchAppender.append cfgSize3 oracleAllOk (List.replicate 7 ev0) {}).1

/-- An engine state with an empty pending batch but an armed timer (not
reachable in the sequential model, but the state space `flush` is
defined on). -/
def stateEmptyArmed : EngineState := { flushTimer := true }

/-- An engine state holding one poolable event (store index 0 of
`poolCheckedOut`) in its pending batch. -/
def statePooledBatch : EngineState :=
  { batch := [{ poolIdx := some 0 }],
    stats := { totalEvents := 1, pendingEvents := 1 },
    pool := poolCheckedOut }

/-- An engine state with a non-empty batch, an armed timer, and the
corresponding `armTimer` action already recorded. -/
def stateArmedBatch : EngineState :=
  { batch := [ev0], flushTimer := true, actions := [EngineAction.armTimer],
    stats := { totalEvents := 1, pendingEvents := 1 } }

/-! # Theorems -/

/-! ## List helper lemmas -/

theorem getD_set_eq {α : Type} (l : List α) (i : Nat) (a d : α) (h : i < l.length) :
    (l.set i a).getD i d = a := by
  induction l generalizing i with
  | nil => simp at h
  | cons x xs ih =>
      cases i with
      | zero => rfl
      | succ n =>
          simp only [List.set, List.getD, List.getElem?_cons_succ] at *
          exact ih n (by simpa using h)

theorem getD_set_ne {α : Type} (l : List α) (i j : Nat) (a d : α) (h : i ≠ j) :
    (l.set i a).getD j d = l.getD j d := by
  induction l generalizing i j with
  | nil => rfl
  | cons x xs ih =>
      cases i with
      | zero =>
          cases j with
          | zero => exact absurd rfl h
          | succ m => rfl
      | succ n =>
          cases j with
          | zero => rfl
          | succ m =>
              simp only [List.set, List.getD, List.getElem?_cons_succ]
              exact ih n m (fun hc => h (by rw [hc]))

theorem getD_append_left {α : Type} (l t : List α) (i : Nat) (d : α) (h : i < l.length) :
    (l ++ t).getD i d = l.getD i d := by
  induction l generalizing i with
  | nil => simp at h
  | cons x xs ih =>
      cases i with
      | zero => rfl
      | succ n =>
          simp only [List.cons_append, List.getD, List.getElem?_cons_succ]
          exact ih n (by simpa using h)

theorem getD_append_length {α : Type} (l : List α) (a d : α) :
    (l ++ [a]).getD l.length d = a := by
  induction l with
  | nil => rfl
  | cons x xs ih =>
      simpa only [List.cons_append, List.getD, List.getElem?_cons_succ, List.length_cons]
        using ih

/-! ## Pool helper lemmas -/

theorem release_noop (p : LogEventPool) (i : Nat)
    (h : (p.store.getD i createNewEvent).inPool = true) : p.release i = p := by
  unfold LogEventPool.release
  rw [if_pos h]

theorem release_store_length (p : LogEventPool) (i : Nat) :
    (p.release i).store.length = p.store.length := by
  unfold LogEventPool.release
  by_cases h : (p.store.getD i createNewEvent).inPool = true
  · rw [if_pos h]
  · rw [if_neg h]
    exact List.length_set p.store i _

theorem release_marks_self (p : LogEventPool) (i : Nat) (hi : i < p.store.length) :
    ((p.release i).store.getD i createNewEvent).inPool = true := by
  unfold LogEventPool.release
  by_cases h : (p.store.getD i createNewEvent).inPool = true
  · rw [if_pos h]
    exact h
  · rw [if_neg h]
    rw [getD_set_eq _ _ _ _ hi]

theorem isReset_withInPool (e : PooledEvent) (b : Bool) :
    ({ e with inPool := b } : PooledEvent).isReset ↔ e.isReset := by
  simp [PooledEvent.isReset]

theorem isReset_reset (e : PooledEvent) : e.reset.isReset := by
  simp [PooledEvent.reset, PooledEvent.isReset]

/-! ## Claim C7 -/

/-- Claim C7: `release()` is idempotent.  If an event's marker already
shows it is pooled, `release` leaves the pool (free list, stored event
fields, statistics) completely unchanged; consequently releasing the
same event twice is the same as releasing it once, so the second release
cannot duplicate it in the free list. -/
theorem release_idempotent (p : LogEventPool) (i : Nat) :
    ((p.store.getD i createNewEvent).inPool = true → p.release i = p) ∧
    (i < p.store.length → (p.release i).release i = p.release i) := by
  refine ⟨release_noop p i, fun hi => ?_⟩
  exact release_noop (p.release i) i (release_marks_self p i hi)

/-- Witness for C7 on a concrete pool: its single event is marked
pooled, so releasing it is a no-op, and a double release equals a
single one. -/
theorem release_idempotent_witness :
    (poolWithPooled.release 0 = poolWithPooled) ∧
    ((poolWithPooled.release 0).release 0 = poolWithPooled.release 0) :=
  ⟨(release_idempotent poolWithPooled 0).1 (by decide),
   (release_idempotent poolWithPooled 0).2 (by decide)⟩

/-! ## Claim C8 -/

/-- Claim C8: round trip through the pool resets state.  For a
well-formed pool and a checked-out event, after `release(event)` the
immediately following `acquire()` returns an instance (a valid store
index) all of whose mutable fields are at their defaults: no residual
message, data, context or error, level `'info'`, timestamp 0. -/
theorem acquire_after_release_reset (p : LogEventPool) (i : Nat)
    (hInv : p.Inv) (hi : i < p.store.length)
    (hout : (p.store.getD i createNewEvent).inPool = false) :
    (p.release i).acquire.1 < (p.release i).acquire.2.store.length ∧
    ((p.release i).acquire.2.store.getD (p.release i).acquire.1 createNewEvent).isReset := by
  have hrel : p.release i =
      { p with
          store := p.store.set i
            { (p.store.getD i createNewEvent).reset with inPool := true },
          pool := if p.pool.length < p.maxPoolSize then i :: p.pool else p.pool,
          active := p.active - 1 } := by
    unfold LogEventPool.release
    rw [if_neg (by rw [hout]; exact Bool.false_ne_true)]
  by_cases hfull : p.pool.length < p.maxPoolSize
  · -- the released event is pushed and popped right back
    rw [hrel]
    simp only [LogEventPool.acquire, hfull, if_true]
    constructor
    · simp [hi]
    · rw [getD_set_eq _ _ _ _ (by simpa using hi), getD_set_eq _ _ _ _ hi]
      exact (isReset_withInPool _ _).2 ((isReset_withInPool _ _).2 (isReset_reset _))
  · -- free list full: the event is discarded, acquire serves another entry
    rw [hrel]
    simp only [hfull, if_false]
    cases hpool : p.pool with
    | nil =>
        -- empty free list: acquire creates a fresh event
        simp only [LogEventPool.acquire, hpool]
        constructor
        · simp
        · rw [getD_append_length]
          decide
    | cons k rest =>
        obtain ⟨hk, hkreset, hkmark⟩ := hInv k (by rw [hpool]; exact List.mem_cons_self k rest)
        have hki : k ≠ i := by
          intro hEq
          rw [hEq, hout] at hkmark
          exact Bool.false_ne_true hkmark
        simp only [LogEventPool.acquire, hpool]
        constructor
        · simpa using hk
        · rw [getD_set_eq _ _ _ _ (by simpa using hk), getD_set_ne _ _ _ _ _ (Ne.symm hki)]
          exact (isReset_withInPool _ _).2 hkreset

/-- Witness for C8 on a concrete pool: release the single checked-out
event, acquire it back, and observe every mutable field reset. -/
theorem acquire_after_release_reset_witness :
    (poolCheckedOut.release 0).acquire.1 <
        (poolCheckedOut.release 0).acquire.2.store.length ∧
    ((poolCheckedOut.release 0).acquire.2.store.getD
        (poolCheckedOut.release 0).acquire.1 createNewEvent).isReset :=
  acquire_after_release_reset poolCheckedOut 0 (by decide) (by decide) (by decide)

/-! ## Claim C10 -/

/-- Unrolling `prewarm`'s loop: `m` iterations append `m` fresh, reset,
marked instances to the store and push `m` entries onto the free list,
never reading the free list's length. -/
theorem prewarmLoop_spec (m : Nat) (p : LogEventPool) :
    (LogEventPool.prewarmLoop p m).store = p.store ++ List.replicate m prewarmEntry ∧
    (LogEventPool.prewarmLoop p m).pool.length = p.pool.length + m ∧
    (LogEventPool.prewarmLoop p m).maxPoolSize = p.maxPoolSize := by
  induction m generalizing p with
  | zero => simp [LogEventPool.prewarmLoop]
  | succ n ih =>
      obtain ⟨h1, h2, h3⟩ := ih
        { p with store := p.store ++ [prewarmEntry], pool := p.store.length :: p.pool }
      refine ⟨?_, ?_, ?_⟩
      · rw [LogEventPool.prewarmLoop]
        rw [show ({ createNewEvent.reset with inPool := true } : PooledEvent) = prewarmEntry
              from rfl]
        rw [h1]
        simp [List.replicate_succ, List.append_assoc]
      · rw [LogEventPool.prewarmLoop]
        rw [show ({ createNewEvent.reset with inPool := true } : PooledEvent) = prewarmEntry
              from rfl]
        rw [h2]
        simp only [List.length_cons]
        omega
      · rw [LogEventPool.prewarmLoop]
        rw [show ({ createNewEvent.reset with inPool := true } : PooledEvent) = prewarmEntry
              from rfl]
        exact h3

/-- Claim C10: `prewarm(n)` pushes exactly `min(n, maxPoolSize)` freshly
created, reset instances onto the free list without consulting the free
list's current length; the free list's length afterwards is its old
length plus `min(n, maxPoolSize)`, which can exceed `maxPoolSize`
(final conjunct: a pool whose free list already holds an entry). -/
theorem prewarm_spec (p : LogEventPool) (n : Nat) :
    (p.prewarm n).pool.length = p.pool.length + min n p.maxPoolSize ∧
    (p.prewarm n).store = p.store ++ List.replicate (min n p.maxPoolSize) prewarmEntry ∧
    (∃ q : LogEventPool, 0 < q.pool.length ∧ q.maxPoolSize < (q.prewarm 1).pool.length) := by
  obtain ⟨h1, h2, _⟩ := prewarmLoop_spec (min n p.maxPoolSize) p
  refine ⟨h2, h1, ?_⟩
  refine ⟨{ store := [prewarmEntry], pool := [0], maxPoolSize := 1 }, by decide, ?_⟩
  decide

/-! ## Engine helper lemmas -/

open AAsyncBatchAppender

theorem updateAvg_fields (stats : BatchStats) (n : Nat) :
    (updateAverageBatchSize stats n).totalEvents = stats.totalEvents ∧
    (updateAverageBatchSize stats n).batchesFlushed = stats.batchesFlushed ∧
    (updateAverageBatchSize stats n).pendingEvents = stats.pendingEvents ∧
    (updateAverageBatchSize stats n).errors = stats.errors ∧
    (updateAverageBatchSize stats n).retries = stats.retries := by
  unfold AAsyncBatchAppender.updateAverageBatchSize
  split <;> exact ⟨rfl, rfl, rfl, rfl, rfl⟩

/-- `retryBatch` satisfies the recursion equation of the source: guard
`attempt >= (maxRetries ?? 3)` throws the terminal error after releasing
the events; otherwise count the retry, wait the capped exponential
delay, re-invoke `processBatch`, and on failure recurse with
`attempt + 1`.  (This discharges the fuel encoding against the source's
shape.) -/
theorem retryBatch_eq (cfg : BatchConfig) (oracle : Nat → Option Nat) (s : EngineState)
    (batch : List LogEvent) (attempt : Nat) :
    retryBatch cfg oracle s batch attempt =
      if cfg.maxRetries.getD 3 ≤ attempt then
        ({ s with pool := returnEventsToPool s.pool batch }, .terminalErr attempt)
      else
        let s1 : EngineState :=
          { s with stats := { s.stats with retries := s.stats.retries + 1 } }
        let delay := min (1000 * 2 ^ attempt) 10000
        let s2 : EngineState := { s1 with delays := s1.delays ++ [delay] }
        let outcome := oracle s2.calls
        let s3 : EngineState :=
          { s2 with calls := s2.calls + 1,
                    processed := s2.processed ++ [(batch, true)],
                    actions := s2.actions ++ [EngineAction.invokeProcess] }
        match outcome with
        | none =>
            let stats := { s3.stats with batchesFlushed := s3.stats.batchesFlushed + 1 }
            let stats := updateAverageBatchSize stats batch.length
            ({ s3 with stats := stats, pool := returnEventsToPool s3.pool batch }, .ok)
        | some _ => retryBatch cfg oracle s3 batch (attempt + 1) := by
  by_cases h : cfg.maxRetries.getD 3 ≤ attempt
  · rw [if_pos h]
    unfold retryBatch
    rw [Nat.sub_eq_zero_of_le h]
    rfl
  · rw [if_neg h]
    unfold retryBatch
    have h2 : cfg.maxRetries.getD 3 - attempt = (cfg.maxRetries.getD 3 - (attempt + 1)) + 1 := by
      omega
    rw [h2]
    rfl

/-- The state `retryBatchAux` reaches just before consulting the sink on
a non-terminal attempt. -/
def retryStep (s : EngineState) (batch : List LogEvent) (attempt : Nat) : EngineState :=
  { s with stats := { s.stats with retries := s.stats.retries + 1 },
           delays := s.delays ++ [min (1000 * 2 ^ attempt) 10000],
           calls := s.calls + 1,
           processed := s.processed ++ [(batch, true)],
           actions := s.actions ++ [EngineAction.invokeProcess] }

theorem retryBatchAux_succ_none (cfg : BatchConfig) (oracle : Nat → Option Nat)
    (fuel : Nat) (s : EngineState) (batch : List LogEvent) (attempt : Nat)
    (ho : oracle s.calls = none) :
    retryBatchAux cfg oracle (fuel + 1) s batch attempt =
      ({ retryStep s batch attempt with
           stats := updateAverageBatchSize
             { (retryStep s batch attempt).stats with
                 batchesFlushed := (retryStep s batch attempt).stats.batchesFlushed + 1 }
             batch.length,
           pool := returnEventsToPool s.pool batch }, .ok) := by
  simp only [retryBatchAux]
  rw [ho]
  rfl

theorem retryBatchAux_succ_some (cfg : BatchConfig) (oracle : Nat → Option Nat)
    (fuel : Nat) (s : EngineState) (batch : List LogEvent) (attempt : Nat) (e : Nat)
    (ho : oracle s.calls = some e) :
    retryBatchAux cfg oracle (fuel + 1) s batch attempt =
      retryBatchAux cfg oracle fuel (retryStep s batch attempt) batch (attempt + 1) := by
  simp only [retryBatchAux]
  rw [ho]
  rfl

/-- Trace characterization of `retryBatchAux`: it only appends to the
observation traces — every appended `processed` record is the same batch
flagged as a retry, one sink invocation per appended record, at most
`fuel` of them — and it never touches `totalEvents`, `pendingEvents`,
the pending buffer, the timer, or the destroying flag. -/
theorem retryBatchAux_trace (cfg : BatchConfig) (oracle : Nat → Option Nat) (fuel : Nat) :
    ∀ (s : EngineState) (batch : List LogEvent) (attempt : Nat),
      ∃ pt dt acts,
        (retryBatchAux cfg oracle fuel s batch attempt).1.processed = s.processed ++ pt ∧
        (∀ r ∈ pt, r = (batch, true)) ∧
        (retryBatchAux cfg oracle fuel s batch attempt).1.delays = s.delays ++ dt ∧
        (retryBatchAux cfg oracle fuel s batch attempt).1.actions = s.actions ++ acts ∧
        (retryBatchAux cfg oracle fuel s batch attempt).1.calls = s.calls + pt.length ∧
        pt.length ≤ fuel ∧
        (retryBatchAux cfg oracle fuel s batch attempt).1.stats.totalEvents =
          s.stats.totalEvents ∧
        (retryBatchAux cfg oracle fuel s batch attempt).1.stats.pendingEvents =
          s.stats.pendingEvents ∧
        (retryBatchAux cfg oracle fuel s batch attempt).1.batch = s.batch ∧
        (retryBatchAux cfg oracle fuel s batch attempt).1.flushTimer = s.flushTimer ∧
        (retryBatchAux cfg oracle fuel s batch attempt).1.isDestroying = s.isDestroying := by
  induction fuel with
  | zero =>
      intro s batch attempt
      exact ⟨[], [], [], by simp [retryBatchAux], by simp, by simp [retryBatchAux],
        by simp [retryBatchAux], by simp [retryBatchAux], Nat.le_refl 0,
        rfl, rfl, rfl, rfl, rfl⟩
  | succ fuel ih =>
      intro s batch attempt
      cases ho : oracle s.calls with
      | none =>
          rw [retryBatchAux_succ_none cfg oracle fuel s batch attempt ho]
          refine ⟨[(batch, true)], [min (1000 * 2 ^ attempt) 10000],
            [EngineAction.invokeProcess], rfl, ?_, rfl, rfl, rfl, by simp,
            ?_, ?_, rfl, rfl, rfl⟩
          · intro r hr
            simpa using hr
          · exact (updateAvg_fields _ _).1
          · exact (updateAvg_fields _ _).2.2.1
      | some e =>
          rw [retryBatchAux_succ_some cfg oracle fuel s batch attempt e ho]
          obtain ⟨pt, dt, acts, h1, h2, h3, h4, h5, h6, h7, h8, h9, h10, h11⟩ :=
            ih (retryStep s batch attempt) batch (attempt + 1)
          refine ⟨(batch, true) :: pt, min (1000 * 2 ^ attempt) 10000 :: dt,
            EngineAction.invokeProcess :: acts, ?_, ?_, ?_, ?_, ?_, ?_, ?_, ?_, ?_, ?_, ?_⟩
          · rw [h1]
            simp [retryStep]
          · intro r hr
            rcases List.mem_cons.1 hr with hr | hr
            · exact hr
            · exact h2 r hr
          · rw [h3]
            simp [retryStep]
          · rw [h4]
            simp [retryStep]
          · rw [h5]
            simp only [retryStep, List.length_cons]
            omega
          · simpa using Nat.succ_le_succ h6
          · rw [h7]; rfl
          · rw [h8]; rfl
          · rw [h9]; rfl
          · rw [h10]; rfl
          · rw [h11]; rfl

/-! ## Claim C4 -/

/-- Claim C4: for every attempt `k < maxRetries` (with
`maxRetries = config.maxRetries ?? 3`), `retryBatch(batch, k)` waits
exactly `min(1000 * 2^k, 10000)` ms and then re-invokes
`processBatch(batch)` (the wait and the retry-flagged invocation are the
next entries of the respective traces); for `k >= maxRetries` it
releases the batch's events back to the pool and raises the terminal
error without invoking `processBatch`; and in every case at most
`maxRetries - k` further sink invocations occur, so a batch entering the
retry machine at attempt 0 causes at most `maxRetries` re-invocations. -/
theorem retryBatch_backoff (cfg : BatchConfig) (oracle : Nat → Option Nat)
    (s : EngineState) (batch : List LogEvent) (attempt : Nat) :
    (cfg.maxRetries.getD 3 ≤ attempt →
      retryBatch cfg oracle s batch attempt =
        ({ s with pool := returnEventsToPool s.pool batch },
          FlushOutcome.terminalErr attempt)) ∧
    (attempt < cfg.maxRetries.getD 3 →
      ((retryBatch cfg oracle s batch attempt).1.delays.getD s.delays.length 0 =
          min (1000 * 2 ^ attempt) 10000 ∧
        (retryBatch cfg oracle s batch attempt).1.processed.getD s.processed.length
            ([], false) = (batch, true) ∧
        s.calls < (retryBatch cfg oracle s batch attempt).1.calls)) ∧
    (retryBatch cfg oracle s batch attempt).1.calls ≤
      s.calls + (cfg.maxRetries.getD 3 - attempt) := by
  refine ⟨?_, ?_, ?_⟩
  · intro h
    unfold retryBatch
    rw [Nat.sub_eq_zero_of_le h]
    rfl
  · intro h
    unfold retryBatch
    obtain ⟨fuel, hfuel⟩ : ∃ fuel, cfg.maxRetries.getD 3 - attempt = fuel + 1 :=
      ⟨cfg.maxRetries.getD 3 - attempt - 1, by omega⟩
    rw [hfuel]
    cases ho : oracle s.calls with
    | none =>
        rw [retryBatchAux_succ_none cfg oracle fuel s batch attempt ho]
        refine ⟨?_, ?_, ?_⟩
        · exact getD_append_length s.delays _ 0
        · exact getD_append_length s.processed _ ([], false)
        · exact Nat.lt_succ_self s.calls
    | some e =>
        rw [retryBatchAux_succ_some cfg oracle fuel s batch attempt e ho]
        obtain ⟨pt, dt, acts, h1, h2, h3, h4, h5, h6, _⟩ :=
          retryBatchAux_trace cfg oracle fuel (retryStep s batch attempt) batch (attempt + 1)
        refine ⟨?_, ?_, ?_⟩
        · rw [h3]
          show ((s.delays ++ [min (1000 * 2 ^ attempt) 10000]) ++ dt).getD s.delays.length 0 = _
          rw [getD_append_left _ _ _ _ (by simp), getD_append_length]
        · rw [h1]
          show ((s.processed ++ [(batch, true)]) ++ pt).getD s.processed.length ([], false) = _
          rw [getD_append_left _ _ _ _ (by simp), getD_append_length]
        · rw [h5]
          show s.calls < (retryStep s batch attempt).calls + pt.length
          simp only [retryStep]
          omega
  · unfold retryBatch
    obtain ⟨pt, _, _, _, _, _, _, h5, h6, _⟩ :=
      retryBatchAux_trace cfg oracle (cfg.maxRetries.getD 3 - attempt) s batch attempt
    omega

/-- Witness for C4: under a config with `maxRetries = 2`, entering the
retry machine at attempt 0 against an always-failing sink records a
first backoff of 1000 ms and performs at most 2 sink invocations. -/
theorem retryBatch_backoff_witness :
    ((retryBatch cfgRetry2 oracleAllFail {} [ev0] 0).1.delays.getD 0 0 =
        min (1000 * 2 ^ 0) 10000 ∧
      (retryBatch cfgRetry2 oracleAllFail {} [ev0] 0).1.processed.getD 0 ([], false) =
        ([ev0], true)) ∧
    (retryBatch cfgRetry2 oracleAllFail {} [ev0] 0).1.calls ≤ 0 + (2 - 0) :=
  ⟨⟨((retryBatch_backoff cfgRetry2 oracleAllFail {} [ev0] 0).2.1 (by decide)).1,
    ((retryBatch_backoff cfgRetry2 oracleAllFail {} [ev0] 0).2.1 (by decide)).2.1⟩,
   (retryBatch_backoff cfgRetry2 oracleAllFail {} [ev0] 0).2.2⟩

/-! ## Claim C2 -/

/-- Claim C2 counterexample: one event appended under a retry-enabled
config against a sink that fails once then succeeds.  The batch (of
length 1) succeeds inside `retryBatch`: `batchesFlushed` becomes 1, but
`pendingEvents` stays 1 — the success path of `flush()` would have
decremented it to 0, so the retry success bookkeeping is NOT identical
to `flush()`'s success path. -/
theorem retry_success_pending_cex :
    runRetrySuccess.stats.batchesFlushed = 1 ∧
    runRetrySuccess.stats.pendingEvents = 1 ∧
    runRetrySuccess.stats.pendingEvents ≠ 0 :=
  ⟨by decide, by decide, by decide⟩

/-- Claim C2 (amended): when `retryBatch(batch, attempt)` re-invokes
`processBatch(batch)` and it succeeds, the bookkeeping matches the
success path of `flush()` EXCEPT that `pendingEvents` is not
decremented: `batchesFlushed` is incremented, `avgBatchSize` is
recomputed by the same running-average update, every event of the batch
is released back to the pool, the call resolves — and `pendingEvents`
is left unchanged. -/
theorem retryBatch_success_bookkeeping (cfg : BatchConfig) (oracle : Nat → Option Nat)
    (s : EngineState) (batch : List LogEvent) (attempt : Nat)
    (hk : attempt < cfg.maxRetries.getD 3) (ho : oracle s.calls = none) :
    (retryBatch cfg oracle s batch attempt).2 = FlushOutcome.ok ∧
    (retryBatch cfg oracle s batch attempt).1.stats.batchesFlushed =
      s.stats.batchesFlushed + 1 ∧
    (retryBatch cfg oracle s batch attempt).1.stats.avgBatchSize =
      (updateAverageBatchSize
        { s.stats with batchesFlushed := s.stats.batchesFlushed + 1 }
        batch.length).avgBatchSize ∧
    (retryBatch cfg oracle s batch attempt).1.pool = returnEventsToPool s.pool batch ∧
    (retryBatch cfg oracle s batch attempt).1.stats.pendingEvents =
      s.stats.pendingEvents := by
  unfold retryBatch
  obtain ⟨fuel, hfuel⟩ : ∃ fuel, cfg.maxRetries.getD 3 - attempt = fuel + 1 :=
    ⟨cfg.maxRetries.getD 3 - attempt - 1, by omega⟩
  rw [hfuel, retryBatchAux_succ_none cfg oracle fuel s batch attempt ho]
  refine ⟨rfl, ?_, ?_, rfl, ?_⟩
  · rw [(updateAvg_fields _ _).2.1]
    rfl
  · unfold AAsyncBatchAppender.updateAverageBatchSize
    simp only [retryStep]
    split <;> rfl
  · rw [(updateAvg_fields _ _).2.2.1]
    rfl

/-- Witness for C2's amended theorem: a concrete retry success under
`cfgRetry2` with a fresh engine state. -/
theorem retryBatch_success_bookkeeping_witness :
    (retryBatch cfgRetry2 oracleAllOk {} [ev0] 0).2 = FlushOutcome.ok ∧
    (retryBatch cfgRetry2 oracleAllOk {} [ev0] 0).1.stats.pendingEvents =
      ({} : EngineState).stats.pendingEvents :=
  ⟨(retryBatch_success_bookkeeping cfgRetry2 oracleAllOk {} [ev0] 0
      (by decide) rfl).1,
   (retryBatch_success_bookkeeping cfgRetry2 oracleAllOk {} [ev0] 0
      (by decide) rfl).2.2.2.2⟩

/-! ## Release/returnEventsToPool lemmas -/

theorem release_maxPoolSize (p : LogEventPool) (i : Nat) :
    (p.release i).maxPoolSize = p.maxPoolSize := by
  unfold LogEventPool.release
  by_cases h : (p.store.getD i createNewEvent).inPool = true
  · rw [if_pos h]
  · rw [if_neg h]

theorem release_pool_mono (p : LogEventPool) (i j : Nat) (h : j ∈ p.pool) :
    j ∈ (p.release i).pool := by
  unfold LogEventPool.release
  by_cases hm : (p.store.getD i createNewEvent).inPool = true
  · rw [if_pos hm]
    exact h
  · rw [if_neg hm]
    show j ∈ (if p.pool.length < p.maxPoolSize then i :: p.pool else p.pool)
    split
    · exact List.mem_cons_of_mem i h
    · exact h

theorem release_pool_len_mono (p : LogEventPool) (i : Nat) :
    p.pool.length ≤ (p.release i).pool.length := by
  unfold LogEventPool.release
  by_cases hm : (p.store.getD i createNewEvent).inPool = true
  · rw [if_pos hm]
  · rw [if_neg hm]
    show p.pool.length ≤ (if p.pool.length < p.maxPoolSize then i :: p.pool else p.pool).length
    split
    · simp
    · exact Nat.le_refl _

theorem release_entry_other (p : LogEventPool) (i j : Nat) (hne : j ≠ i) :
    (p.release i).store.getD j createNewEvent = p.store.getD j createNewEvent := by
  unfold LogEventPool.release
  by_cases hm : (p.store.getD i createNewEvent).inPool = true
  · rw [if_pos hm]
  · rw [if_neg hm]
    exact getD_set_ne p.store i j _ createNewEvent (fun hc => hne hc.symm)

theorem release_marker_mono (p : LogEventPool) (i j : Nat)
    (h : (p.store.getD j createNewEvent).inPool = true) :
    ((p.release i).store.getD j createNewEvent).inPool = true := by
  by_cases hji : j = i
  · subst hji
    rw [release_noop p j h]
    exact h
  · rw [release_entry_other p i j hji]
    exact h

theorem release_pushes_or_full (p : LogEventPool) (i : Nat)
    (hm : (p.store.getD i createNewEvent).inPool = false) :
    i ∈ (p.release i).pool ∨ p.maxPoolSize ≤ (p.release i).pool.length := by
  unfold LogEventPool.release
  rw [if_neg (by rw [hm]; exact Bool.false_ne_true)]
  by_cases hl : p.pool.length < p.maxPoolSize
  · left
    show i ∈ (if p.pool.length < p.maxPoolSize then i :: p.pool else p.pool)
    rw [if_pos hl]
    exact List.mem_cons_self i p.pool
  · right
    show p.maxPoolSize ≤ (if p.pool.length < p.maxPoolSize then i :: p.pool else p.pool).length
    rw [if_neg hl]
    omega

theorem returnEventsToPool_eq (events : List LogEvent) :
    ∀ pool : LogEventPool,
      returnEventsToPool pool events = releaseAll pool (events.filterMap LogEvent.poolIdx) := by
  induction events with
  | nil => intro pool; rfl
  | cons e rest ih =>
      intro pool
      cases he : e.poolIdx with
      | none =>
          show returnEventsToPool _ _ = _
          unfold AAsyncBatchAppender.returnEventsToPool
          rw [List.foldl_cons, List.filterMap_cons, he]
          exact ih pool
      | some i =>
          show returnEventsToPool _ _ = _
          unfold AAsyncBatchAppender.returnEventsToPool
          rw [List.foldl_cons, List.filterMap_cons, he]
          exact ih (pool.release i)

theorem releaseAll_maxPoolSize (l : List Nat) :
    ∀ p : LogEventPool, (releaseAll p l).maxPoolSize = p.maxPoolSize := by
  induction l with
  | nil => intro p; rfl
  | cons i rest ih =>
      intro p
      show (releaseAll (p.release i) rest).maxPoolSize = p.maxPoolSize
      rw [ih (p.release i), release_maxPoolSize]

theorem releaseAll_store_length (l : List Nat) :
    ∀ p : LogEventPool, (releaseAll p l).store.length = p.store.length := by
  induction l with
  | nil => intro p; rfl
  | cons i rest ih =>
      intro p
      show (releaseAll (p.release i) rest).store.length = p.store.length
      rw [ih (p.release i), release_store_length]

theorem releaseAll_pool_mono (l : List Nat) :
    ∀ (p : LogEventPool) (j : Nat), j ∈ p.pool → j ∈ (releaseAll p l).pool := by
  induction l with
  | nil => intro p j h; exact h
  | cons i rest ih =>
      intro p j h
      exact ih (p.release i) j (release_pool_mono p i j h)

theorem releaseAll_pool_len_mono (l : List Nat) :
    ∀ p : LogEventPool, p.pool.length ≤ (releaseAll p l).pool.length := by
  induction l with
  | nil => intro p; exact Nat.le_refl _
  | cons i rest ih =>
      intro p
      exact Nat.le_trans (release_pool_len_mono p i) (ih (p.release i))

theorem releaseAll_marker_mono (l : List Nat) :
    ∀ (p : LogEventPool) (j : Nat),
      (p.store.getD j createNewEvent).inPool = true →
      ((releaseAll p l).store.getD j createNewEvent).inPool = true := by
  induction l with
  | nil => intro p j h; exact h
  | cons i rest ih =>
      intro p j h
      exact ih (p.release i) j (release_marker_mono p i j h)

theorem releaseAll_marks (l : List Nat) :
    ∀ (p : LogEventPool) (j : Nat), j ∈ l → j < p.store.length →
      ((releaseAll p l).store.getD j createNewEvent).inPool = true := by
  induction l with
  | nil => intro p j h _; exact absurd h (List.not_mem_nil j)
  | cons i rest ih =>
      intro p j hj hlt
      rcases List.mem_cons.1 hj with rfl | hjr
      · exact releaseAll_marker_mono rest (p.release j) j (release_marks_self p j hlt)
      · exact ih (p.release i) j hjr (by rw [release_store_length]; exact hlt)

theorem releaseAll_mem (l : List Nat) :
    ∀ p : LogEventPool, l.Nodup →
      (∀ i ∈ l, i < p.store.length ∧ (p.store.getD i createNewEvent).inPool = false) →
      ∀ j ∈ l, j ∈ (releaseAll p l).pool ∨ p.maxPoolSize ≤ (releaseAll p l).pool.length := by
  induction l with
  | nil => intro p _ _ j hj; exact absurd hj (List.not_mem_nil j)
  | cons i rest ih =>
      intro p hnd hprop j hj
      have hnd' := List.nodup_cons.1 hnd
      rcases List.mem_cons.1 hj with rfl | hjr
      · rcases release_pushes_or_full p j
            (hprop j (List.mem_cons_self j rest)).2 with hmem | hfull
        · exact Or.inl (releaseAll_pool_mono rest (p.release j) j hmem)
        · exact Or.inr (Nat.le_trans hfull (releaseAll_pool_len_mono rest (p.release j)))
      · have hstep : ∀ k ∈ rest, k < (p.release i).store.length ∧
            ((p.release i).store.getD k createNewEvent).inPool = false := by
          intro k hk
          have hk_ne : k ≠ i := fun hc => hnd'.1 (hc ▸ hk)
          refine ⟨?_, ?_⟩
          · rw [release_store_length]
            exact (hprop k (List.mem_cons_of_mem i hk)).1
          · rw [release_entry_other p i k hk_ne]
            exact (hprop k (List.mem_cons_of_mem i hk)).2
        rcases ih (p.release i) hnd'.2 hstep j hjr with hmem | hlen
        · exact Or.inl hmem
        · exact Or.inr (by rw [← release_maxPoolSize p i]; exact hlen)

/-! ## Flush characterization -/

/-- `flush()` on a non-empty batch factors through `flushedCore`: swap
the buffer, cancel any armed timer, invoke the sink; then dispatch on
the outcome exactly as the source's `try`/`catch` does. -/
theorem flush_eq (cfg : BatchConfig) (oracle : Nat → Option Nat) (s : EngineState)
    (hb : s.batch.isEmpty = false) :
    flush cfg oracle s =
      match oracle s.calls with
      | none =>
          ({ flushedCore s with
               stats := flushSuccessStats s.stats s.batch.length,
               pool := returnEventsToPool s.pool s.batch }, FlushOutcome.ok)
      | some e =>
          if cfg.enableRetry && decide (0 < cfg.maxRetries.getD 0) then
            retryBatch cfg oracle
              { flushedCore s with
                  stats := { s.stats with errors := s.stats.errors + 1 } }
              s.batch 0
          else
            ({ flushedCore s with
                 stats := { s.stats with errors := s.stats.errors + 1 },
                 pool := returnEventsToPool s.pool s.batch }, FlushOutcome.sinkErr e) := by
  obtain ⟨b, ft, st, dfl, pl, c, pr, dl, ac⟩ := s
  dsimp only at hb ⊢
  unfold AAsyncBatchAppender.flush
  dsimp only
  rw [if_neg (by rw [hb]; exact Bool.false_ne_true)]
  cases ho : oracle c with
  | none =>
      cases ft <;> simp [ho, flushedCore, flushSuccessStats]
  | some e =>
      by_cases hr : cfg.enableRetry && decide (0 < cfg.maxRetries.getD 0)
      · cases ft <;> simp [ho, hr, flushedCore]
      · cases ft <;> simp [ho, hr, flushedCore]

theorem getD_append_right_add {α : Type} (l t : List α) (k : Nat) (d : α) :
    (l ++ t).getD (l.length + k) d = t.getD k d := by
  induction l with
  | nil => simp
  | cons x xs ih =>
      show ((x :: (xs ++ t)).getD (xs.length + 1 + k) d) = t.getD k d
      rw [show xs.length + 1 + k = (xs.length + k) + 1 from by omega]
      simp only [List.getD, List.getElem?_cons_succ]
      exact ih

theorem flushedCore_actions (s : EngineState) :
    (s.flushTimer = true →
       (flushedCore s).actions =
         s.actions ++ [EngineAction.swapBuffer, EngineAction.clearTimer,
           EngineAction.invokeProcess]) ∧
    (s.flushTimer = false →
       (flushedCore s).actions =
         s.actions ++ [EngineAction.swapBuffer, EngineAction.invokeProcess]) := by
  constructor <;> intro h <;> simp [flushedCore, h]

/-! ## Claim C5 -/

/-- Claim C5: for a non-empty batch, if `processBatch` rejects and retry
is not enabled (`enableRetry` false, or `maxRetries ?? 0` is 0),
`flush()` increments `errors`, releases the batch's events through
`returnEventsToPool`, and re-raises the same failure to its caller.  The
second conjunct: every pooled event of the batch ends marked pooled; the
third: for a batch of distinct checked-out pooled events, each one is
found on the free list afterwards unless the list has reached the pool's
capacity. -/
theorem flush_error_no_retry (cfg : BatchConfig) (oracle : Nat → Option Nat)
    (s : EngineState) (e : Nat)
    (hb : s.batch.isEmpty = false)
    (ho : oracle s.calls = some e)
    (hr : cfg.enableRetry = false ∨ cfg.maxRetries.getD 0 = 0) :
    flush cfg oracle s =
      ({ flushedCore s with
           stats := { s.stats with errors := s.stats.errors + 1 },
           pool := returnEventsToPool s.pool s.batch }, FlushOutcome.sinkErr e) ∧
    (∀ i ∈ s.batch.filterMap LogEvent.poolIdx, i < s.pool.store.length →
        ((flush cfg oracle s).1.pool.store.getD i createNewEvent).inPool = true) ∧
    ((s.batch.filterMap LogEvent.poolIdx).Nodup →
      (∀ i ∈ s.batch.filterMap LogEvent.poolIdx,
          i < s.pool.store.length ∧ (s.pool.store.getD i createNewEvent).inPool = false) →
      ∀ i ∈ s.batch.filterMap LogEvent.poolIdx,
        i ∈ (flush cfg oracle s).1.pool.pool ∨
          s.pool.maxPoolSize ≤ (flush cfg oracle s).1.pool.pool.length) := by
  have hcond : (cfg.enableRetry && decide (0 < cfg.maxRetries.getD 0)) = false := by
    rcases hr with h | h <;> simp [h]
  have heq : flush cfg oracle s =
      ({ flushedCore s with
           stats := { s.stats with errors := s.stats.errors + 1 },
           pool := returnEventsToPool s.pool s.batch }, FlushOutcome.sinkErr e) := by
    rw [flush_eq cfg oracle s hb, ho]
    simp [hcond]
  refine ⟨heq, ?_, ?_⟩
  · intro i hi hlt
    rw [heq]
    show ((returnEventsToPool s.pool s.batch).store.getD i createNewEvent).inPool = true
    rw [returnEventsToPool_eq]
    exact releaseAll_marks _ s.pool i hi hlt
  · intro hnd hprop i hi
    rw [heq]
    show i ∈ (returnEventsToPool s.pool s.batch).pool ∨
      s.pool.maxPoolSize ≤ (returnEventsToPool s.pool s.batch).pool.length
    rw [returnEventsToPool_eq]
    exact releaseAll_mem _ s.pool hnd hprop i hi

/-- Witness for C5: one pooled event in the batch, an always-failing
sink, retry disabled.  The flush rejects with the sink's error and the
event is back on the free list. -/
theorem flush_error_no_retry_witness :
    (flush cfgNoRetry oracleAllFail statePooledBatch).2 = FlushOutcome.sinkErr 3 ∧
    (0 ∈ (flush cfgNoRetry oracleAllFail statePooledBatch).1.pool.pool ∨
      statePooledBatch.pool.maxPoolSize ≤
        (flush cfgNoRetry oracleAllFail statePooledBatch).1.pool.pool.length) :=
  ⟨by rw [(flush_error_no_retry cfgNoRetry oracleAllFail statePooledBatch 3
        (by decide) rfl (Or.inl rfl)).1],
   (flush_error_no_retry cfgNoRetry oracleAllFail statePooledBatch 3
        (by decide) rfl (Or.inl rfl)).2.2 (by decide) (by decide) 0 (by decide)⟩

/-! ## Claim C6 -/

/-- Claim C6 counterexample.  First: a fully reachable run (arm the
timer with one event, then trigger a size flush with a second) in which
`flush()` swaps the pending buffer BEFORE cancelling the armed timer —
the recorded action order is swap (index 1) before clear (index 2),
contradicting "clears any armed flush timer at its start, before the
pending buffer is swapped".  Second: a `flush()` call made while the
pending batch is empty returns immediately and leaves an armed timer
armed, contradicting "every call to flush() — including a call made
while the pending batch is empty — clears any armed flush timer". -/
theorem flush_timer_order_cex :
    runTimerThenFlush.actions =
      [EngineAction.armTimer, EngineAction.swapBuffer, EngineAction.clearTimer,
        EngineAction.invokeProcess] ∧
    runTimerThenFlush.actions.indexOf EngineAction.swapBuffer <
      runTimerThenFlush.actions.indexOf EngineAction.clearTimer ∧
    flush cfgSize2 oracleAllOk stateEmptyArmed = (stateEmptyArmed, FlushOutcome.ok) ∧
    stateEmptyArmed.flushTimer = true :=
  ⟨by decide, by decide, by decide, by decide⟩

/-- Claim C6 (amended): at most one flush timer is armed at any time
(`scheduleFlush` on an armed engine changes nothing); a `flush()` on an
EMPTY pending batch returns immediately without touching the timer; a
`flush()` on a non-empty batch disarms the timer before returning and
performs, in order: the buffer swap, then (iff a timer was armed) the
timer cancellation, then the `processBatch` invocation — i.e. the
cancellation happens after the swap but still before the sink is
invoked. -/
theorem flush_timer_spec (cfg : BatchConfig) (oracle : Nat → Option Nat)
    (s : EngineState) :
    (s.flushTimer = true → scheduleFlush s = s) ∧
    (s.batch.isEmpty = true → flush cfg oracle s = (s, FlushOutcome.ok)) ∧
    (s.batch.isEmpty = false →
      ((flush cfg oracle s).1.flushTimer = false ∧
       (flush cfg oracle s).1.actions.getD s.actions.length EngineAction.armTimer =
         EngineAction.swapBuffer ∧
       (s.flushTimer = true →
          (flush cfg oracle s).1.actions.getD (s.actions.length + 1)
              EngineAction.armTimer = EngineAction.clearTimer ∧
            (flush cfg oracle s).1.actions.getD (s.actions.length + 2)
              EngineAction.armTimer = EngineAction.invokeProcess) ∧
       (s.flushTimer = false →
          (flush cfg oracle s).1.actions.getD (s.actions.length + 1)
            EngineAction.armTimer = EngineAction.invokeProcess))) := by
  refine ⟨?_, ?_, ?_⟩
  · intro h
    unfold AAsyncBatchAppender.scheduleFlush
    rw [if_pos (by rw [h]; rfl)]
  · intro h
    unfold AAsyncBatchAppender.flush
    rw [if_pos h]
  · intro hb
    have hacts : ∃ tail : List EngineAction,
        (flush cfg oracle s).1.actions = (flushedCore s).actions ++ tail ∧
        (flush cfg oracle s).1.flushTimer = false := by
      rw [flush_eq cfg oracle s hb]
      cases ho : oracle s.calls with
      | none => exact ⟨[], by simp, rfl⟩
      | some e =>
          dsimp only
          by_cases hrc : cfg.enableRetry && decide (0 < cfg.maxRetries.getD 0)
          · rw [if_pos hrc]
            obtain ⟨pt, dt, acts, _, _, _, h4, _, _, _, _, _, h10, _⟩ :=
              retryBatchAux_trace cfg oracle (cfg.maxRetries.getD 3 - 0)
                { flushedCore s with
                    stats := { s.stats with errors := s.stats.errors + 1 } }
                s.batch 0
            refine ⟨acts, ?_, ?_⟩
            · show (retryBatch cfg oracle _ s.batch 0).1.actions = _
              unfold retryBatch
              exact h4
            · show (retryBatch cfg oracle _ s.batch 0).1.flushTimer = false
              unfold retryBatch
              exact h10
          · rw [if_neg hrc]
            exact ⟨[], by simp, rfl⟩
    obtain ⟨tail, hacts, htimer⟩ := hacts
    refine ⟨htimer, ?_, ?_, ?_⟩
    · rw [hacts]
      cases ht : s.flushTimer with
      | true =>
          rw [(flushedCore_actions s).1 ht, List.append_assoc]
          rw [show s.actions.length = s.actions.length + 0 from rfl, getD_append_right_add]
          rfl
      | false =>
          rw [(flushedCore_actions s).2 ht, List.append_assoc]
          rw [show s.actions.length = s.actions.length + 0 from rfl, getD_append_right_add]
          rfl
    · intro ht
      rw [hacts, (flushedCore_actions s).1 ht, List.append_assoc]
      exact ⟨by rw [getD_append_right_add]; rfl, by rw [getD_append_right_add]; rfl⟩
    · intro ht
      rw [hacts, (flushedCore_actions s).2 ht, List.append_assoc]
      rw [getD_append_right_add]
      rfl

/-- Witness for C6's amended theorem: flushing a state with one pending
event and an armed timer records swap, clear, invoke in that order and
leaves the timer disarmed. -/
theorem flush_timer_spec_witness :
    (flush cfgSize2 oracleAllOk stateArmedBatch).1.flushTimer = false ∧
    (flush cfgSize2 oracleAllOk stateArmedBatch).1.actions.getD 1
      EngineAction.armTimer = EngineAction.swapBuffer ∧
    (flush cfgSize2 oracleAllOk stateArmedBatch).1.actions.getD 2
      EngineAction.armTimer = EngineAction.clearTimer ∧
    (flush cfgSize2 oracleAllOk stateArmedBatch).1.actions.getD 3
      EngineAction.armTimer = EngineAction.invokeProcess :=
  ⟨((flush_timer_spec cfgSize2 oracleAllOk stateArmedBatch).2.2 (by decide)).1,
   ((flush_timer_spec cfgSize2 oracleAllOk stateArmedBatch).2.2 (by decide)).2.1,
   (((flush_timer_spec cfgSize2 oracleAllOk stateArmedBatch).2.2 (by decide)).2.2.1
      (by decide)).1,
   (((flush_timer_spec cfgSize2 oracleAllOk stateArmedBatch).2.2 (by decide)).2.2.1
      (by decide)).2⟩

/-! ## Accounting invariant (Claim C1) -/

theorem flushSuccessStats_fields (st : BatchStats) (n : Nat) :
    (flushSuccessStats st n).totalEvents = st.totalEvents ∧
    (flushSuccessStats st n).pendingEvents = st.pendingEvents - n := by
  unfold flushSuccessStats
  constructor
  · rw [(updateAvg_fields _ _).1]
  · rw [(updateAvg_fields _ _).2.2.1]

theorem dss_append (oracle : Nat → Option Nat) (ps qs : List (List LogEvent × Bool)) :
    ∀ k, directSuccSizes oracle k (ps ++ qs) =
      directSuccSizes oracle k ps + directSuccSizes oracle (k + ps.length) qs := by
  induction ps with
  | nil => intro k; simp [directSuccSizes]
  | cons r rest ih =>
      intro k
      show directSuccSizes oracle k (r :: (rest ++ qs)) = _
      simp only [directSuccSizes, List.length_cons]
      rw [ih (k + 1)]
      rw [show k + (rest.length + 1) = k + 1 + rest.length from by omega]
      generalize (if oracle k = none ∧ r.2 = false then r.1.length else 0) = a
      omega

theorem dss_all_true (oracle : Nat → Option Nat) (pt : List (List LogEvent × Bool)) :
    ∀ k, (∀ r ∈ pt, r.2 = true) → directSuccSizes oracle k pt = 0 := by
  induction pt with
  | nil => intro k _; rfl
  | cons r rest ih =>
      intro k h
      have hr := h r (List.mem_cons_self r rest)
      show (if oracle k = none ∧ r.2 = false then r.1.length else 0) +
        directSuccSizes oracle (k + 1) rest = 0
      rw [if_neg (fun hcon => Bool.false_ne_true (hr.symm.trans hcon.2).symm)]
      rw [ih (k + 1) (fun q hq => h q (List.mem_cons_of_mem r hq))]

theorem dss_new_entry (oracle : Nat → Option Nat) (k : Nat) (b : List LogEvent)
    (flag : Bool) :
    directSuccSizes oracle (0 + k) [(b, flag)] =
      if oracle k = none ∧ flag = false then b.length else 0 := by
  show (if oracle (0 + k) = none ∧ flag = false then b.length else 0) +
      directSuccSizes oracle (0 + k + 1) [] =
    if oracle k = none ∧ flag = false then b.length else 0
  rw [Nat.zero_add]
  rfl

theorem flush_inv (cfg : BatchConfig) (oracle : Nat → Option Nat) (s : EngineState)
    (h : EngineInv oracle s) : EngineInv oracle (flush cfg oracle s).1 := by
  obtain ⟨hc, hts, hbp⟩ := h
  cases hb : s.batch.isEmpty with
  | true =>
      unfold AAsyncBatchAppender.flush
      rw [if_pos hb]
      exact ⟨hc, hts, hbp⟩
  | false =>
      have hlen : 1 ≤ s.batch.length := by
        cases hbatch : s.batch with
        | nil => rw [hbatch] at hb; exact absurd hb (by simp)
        | cons x xs => simp
      rw [flush_eq cfg oracle s hb]
      cases ho : oracle s.calls with
      | none =>
          dsimp only
          refine ⟨?_, ?_, ?_⟩
          · show s.calls + 1 = (s.processed ++ [(s.batch, false)]).length
            rw [List.length_append, hc]
            rfl
          · show (flushSuccessStats s.stats s.batch.length).totalEvents =
              directSuccSizes oracle 0 (s.processed ++ [(s.batch, false)]) +
                (flushSuccessStats s.stats s.batch.length).pendingEvents
            rw [(flushSuccessStats_fields _ _).1, (flushSuccessStats_fields _ _).2]
            rw [dss_append, dss_new_entry]
            rw [← hc, ho]
            rw [if_pos ⟨rfl, rfl⟩]
            omega
          · show ([] : List LogEvent).length ≤
              (flushSuccessStats s.stats s.batch.length).pendingEvents
            exact Nat.zero_le _
      | some e =>
          dsimp only
          have hdssnew : directSuccSizes oracle 0 (s.processed ++ [(s.batch, false)]) =
              directSuccSizes oracle 0 s.processed := by
            rw [dss_append, dss_new_entry, ← hc, ho]
            rw [if_neg (fun hcon => Option.some_ne_none e hcon.1)]
            rw [Nat.add_zero]
          by_cases hrc : cfg.enableRetry && decide (0 < cfg.maxRetries.getD 0)
          · rw [if_pos hrc]
            obtain ⟨pt, dt, acts, t1, t2, t3, t4, t5, t6, t7, t8, t9, t10, t11⟩ :=
              retryBatchAux_trace cfg oracle (cfg.maxRetries.getD 3 - 0)
                { flushedCore s with
                    stats := { s.stats with errors := s.stats.errors + 1 } }
                s.batch 0
            unfold retryBatch
            refine ⟨?_, ?_, ?_⟩
            · rw [t5, t1, List.length_append]
              show s.calls + 1 + pt.length = (s.processed ++ [(s.batch, false)]).length +
                pt.length
              rw [List.length_append, hc]
              rfl
            · rw [t7, t8, t1]
              show s.stats.totalEvents =
                directSuccSizes oracle 0 ((s.processed ++ [(s.batch, false)]) ++ pt) +
                  s.stats.pendingEvents
              rw [dss_append, dss_all_true oracle pt _
                    (fun r hr => by rw [t2 r hr]), hdssnew]
              omega
            · rw [t9, t8]
              exact Nat.zero_le _
          · rw [if_neg hrc]
            refine ⟨?_, ?_, ?_⟩
            · show s.calls + 1 = (s.processed ++ [(s.batch, false)]).length
              rw [List.length_append, hc]
              rfl
            · show s.stats.totalEvents =
                directSuccSizes oracle 0 (s.processed ++ [(s.batch, false)]) +
                  s.stats.pendingEvents
              rw [hdssnew]
              exact hts
            · show ([] : List LogEvent).length ≤ s.stats.pendingEvents
              exact Nat.zero_le _

theorem addToBatch_inv (cfg : BatchConfig) (oracle : Nat → Option Nat) (s : EngineState)
    (event : LogEvent) (h : EngineInv oracle s) :
    EngineInv oracle (addToBatch cfg oracle s event).1 := by
  obtain ⟨hc, hts, hbp⟩ := h
  have hinv' : EngineInv oracle
      { s with batch := s.batch ++ [event],
               stats := { s.stats with
                            totalEvents := s.stats.totalEvents + 1,
                            pendingEvents := s.stats.pendingEvents + 1 } } := by
    refine ⟨hc, ?_, ?_⟩
    · show s.stats.totalEvents + 1 =
        directSuccSizes oracle 0 s.processed + (s.stats.pendingEvents + 1)
      omega
    · show (s.batch ++ [event]).length ≤ s.stats.pendingEvents + 1
      rw [List.length_append]
      simp only [List.length_cons, List.length_nil]
      omega
  unfold AAsyncBatchAppender.addToBatch
  dsimp only
  split
  · exact flush_inv cfg oracle _ hinv'
  · show EngineInv oracle (scheduleFlush _)
    unfold AAsyncBatchAppender.scheduleFlush
    split
    · exact hinv'
    · exact ⟨hinv'.1, hinv'.2.1, hinv'.2.2⟩

theorem appendList_inv (cfg : BatchConfig) (oracle : Nat → Option Nat)
    (events : List LogEvent) :
    ∀ s : EngineState, EngineInv oracle s →
      EngineInv oracle (appendList cfg oracle events s).1 := by
  induction events with
  | nil => intro s h; exact h
  | cons e rest ih =>
      intro s h
      have hstep := addToBatch_inv cfg oracle s e h
      unfold AAsyncBatchAppender.appendList
      cases hadd : addToBatch cfg oracle s e with
      | mk s' r =>
          rw [hadd] at hstep
          cases r with
          | ok => exact ih s' hstep
          | sinkErr e2 => exact hstep
          | terminalErr k => exact hstep

theorem append_inv (cfg : BatchConfig) (oracle : Nat → Option Nat)
    (events : List LogEvent) (s : EngineState) (h : EngineInv oracle s) :
    EngineInv oracle (append cfg oracle events s).1 := by
  unfold AAsyncBatchAppender.append
  split
  · exact h
  · exact appendList_inv cfg oracle events s h

theorem destroy_inv (cfg : BatchConfig) (oracle : Nat → Option Nat)
    (s : EngineState) (h : EngineInv oracle s) :
    EngineInv oracle (destroy cfg oracle s).1 := by
  unfold AAsyncBatchAppender.destroy
  split
  · exact h
  · dsimp only
    split
    · exact flush_inv cfg oracle _ ⟨h.1, h.2.1, h.2.2⟩
    · exact flush_inv cfg oracle _ ⟨h.1, h.2.1, h.2.2⟩

theorem timerFire_inv (cfg : BatchConfig) (oracle : Nat → Option Nat)
    (s : EngineState) (h : EngineInv oracle s) :
    EngineInv oracle (timerFire cfg oracle s).1 := by
  unfold AAsyncBatchAppender.timerFire
  split
  · exact flush_inv cfg oracle _ ⟨h.1, h.2.1, h.2.2⟩
  · exact h

theorem reachable_inv (cfg : BatchConfig) (oracle : Nat → Option Nat)
    (s : EngineState) (h : Reachable cfg oracle s) : EngineInv oracle s := by
  induction h with
  | init => exact ⟨rfl, rfl, Nat.le_refl 0⟩
  | append s0 events _ ih => exact append_inv cfg oracle events s0 ih
  | forceFlush s0 _ ih => exact flush_inv cfg oracle s0 ih
  | destroy s0 _ ih => exact destroy_inv cfg oracle s0 ih
  | timerFire s0 _ ih => exact timerFire_inv cfg oracle s0 ih

/-! ## Claim C1 -/

/-- Claim C1 counterexample: one event appended under `cfgRetry1`
(retry enabled, `maxRetries = 1`) against a sink that rejects the first
invocation and resolves the second.  At the resulting quiescent point
the batch of size 1 HAS been successfully processed (on the retry), yet
`pendingEvents` is still 1, so
`totalEvents = 1 ≠ 2 = (sum of successfully processed batch sizes) + pendingEvents`. -/
theorem accounting_identity_cex :
    Reachable cfgRetry1 oracleFailFirst runRetrySuccess ∧
    runRetrySuccess.stats.totalEvents = 1 ∧
    succProcessedSizes oracleFailFirst 0 runRetrySuccess.processed = 1 ∧
    runRetrySuccess.stats.pendingEvents = 1 ∧
    runRetrySuccess.stats.totalEvents ≠
      succProcessedSizes oracleFailFirst 0 runRetrySuccess.processed +
        runRetrySuccess.stats.pendingEvents :=
  ⟨Reachable.append _ [ev0] Reachable.init, by decide, by decide, by decide, by decide⟩

/-- Claim C1 (amended): for every engine state reachable by any sequence
of completed `append()`/`forceFlush()`/`destroy()`/timer-fired-flush
operations (every such state is a quiescent point of the cooperative
single-threaded model), `stats.totalEvents` equals the sum of the sizes
of the batches successfully processed on the DIRECT flush path plus
`stats.pendingEvents`; batches that succeed via `retryBatch` do not
decrement `pendingEvents`, so they are excluded from the sum. -/
theorem accounting_identity (cfg : BatchConfig) (oracle : Nat → Option Nat)
    (s : EngineState) (h : Reachable cfg oracle s) :
    s.stats.totalEvents = directSuccSizes oracle 0 s.processed + s.stats.pendingEvents :=
  (reachable_inv cfg oracle s h).2.1

/-- Witness for C1's amended theorem: three events appended under
`cfgSize3` with an always-succeeding sink — the batch stays pending, and
`totalEvents = 0 + pendingEvents = 3`. -/
theorem accounting_identity_witness :
    (append cfgSize3 oracleAllOk [ev0, ev0, ev0] ({} : EngineState)).1.stats.totalEvents =
      directSuccSizes oracleAllOk 0
          (append cfgSize3 oracleAllOk [ev0, ev0, ev0] ({} : EngineState)).1.processed +
        (append cfgSize3 oracleAllOk [ev0, ev0, ev0] ({} : EngineState)).1.stats.pendingEvents :=
  accounting_identity cfgSize3 oracleAllOk _ (Reachable.append _ [ev0, ev0, ev0] Reachable.init)

/-! ## Claim C3 -/

/-- Claim C3 counterexample: with `maxMemoryUsage` configured to 0
bytes, the spec's predicate fires on a one-event batch (the estimated
size, 104, meets or exceeds 0) but the code's `shouldFlush` returns
`false`, because the JS truthiness guard `if (this.config.maxMemoryUsage)`
skips the memory branch for the configured value 0. -/
theorem shouldFlush_spec_cex :
    specShouldFlush cfgMemZero [evMsg] ∧
      AAsyncBatchAppender.shouldFlush cfgMemZero [evMsg] = false := by
  constructor
  · exact Or.inr ⟨0, rfl, Nat.zero_le _⟩
  · decide

/-- Claim C3 (amended): `shouldFlush()` returns true if and only if the
batch length reaches `maxBatchSize`, or `maxMemoryUsage` is configured
to a NONZERO value and the heuristic estimated size of the pending
events meets or exceeds it. -/
theorem shouldFlush_iff (cfg : BatchConfig) (batch : List LogEvent) :
    AAsyncBatchAppender.shouldFlush cfg batch = true ↔
      (cfg.maxBatchSize ≤ batch.length ∨
        ∃ m, cfg.maxMemoryUsage = some m ∧ m ≠ 0 ∧
          m ≤ AAsyncBatchAppender.estimateBatchMemoryUsage batch) := by
  unfold AAsyncBatchAppender.shouldFlush
  by_cases h : cfg.maxBatchSize ≤ batch.length
  · simp [h]
  · rw [if_neg h]
    cases hm : cfg.maxMemoryUsage with
    | none => simp [h, hm]
    | some m => simp [h, hm, Bool.and_eq_true, decide_eq_true_iff, and_assoc]

/-! ## Claim C9 -/

/-- Claim C9 counterexample: with `maxBatchSize = 3`, seven events
appended sequentially, and no time trigger firing, only TWO flushes
occur, delivering batches of sizes `[3, 3]`; the seventh event stays in
the pending buffer, so the claimed three flushes of sizes `[3, 3, 1]` do
not happen. -/
theorem batch_sizes_cex :
    flushSizes runSeven = [3, 3] ∧ runSeven.processed.length = 2 ∧
      flushSizes runSeven ≠ [3, 3, 1] :=
  ⟨by decide, by decide, by decide⟩

/-- Claim C9 (amended): with `maxBatchSize = 3` and 7 events appended
sequentially with no time trigger firing, exactly 2 flushes occur with
sizes `[3, 3]` and one event remains pending; a subsequent forced flush
(`forceFlush()`/`destroy()`, or the timer when it fires) delivers the
remaining batch of size 1, for sizes `[3, 3, 1]` overall. -/
theorem batch_sizes_amended :
    flushSizes runSeven = [3, 3] ∧ runSeven.batch.length = 1 ∧
      flushSizes (AAsyncBatchAppender.forceFlush cfgSize3 oracleAllOk runSeven).1 =
        [3, 3, 1] :=
  ⟨by decide, by decide, by decide⟩

end FFS2
